import Mathlib

/-!
Shallow embedding of the heart-rate monitor's signal-processing core (the
`heartRateMonitor` module): sample buffer, statistics, signal-quality gate,
raw-BPM estimation, time-windowed consistency filter and the BPM lock state
machine.  JS numbers are modelled as exact rationals; the one place where the
source produces NaN (`calculateStdDev`, which calls `Math.pow` with a single
argument) is modelled with `Option ℚ`, `none` standing for NaN.
-/

namespace HRM

/-- One brightness sample `{ value, time }` appended per tick. -/
structure Sample where
  value : ℚ
  time : ℚ
deriving DecidableEq

/-- `MAX_SAMPLES = 60 * 5`. -/
def MAX_SAMPLES : ℕ := 60 * 5

/-- `MIN_SAMPLES_FOR_ANALYSIS = MAX_SAMPLES / 3` (= 100, the division is exact). -/
def MIN_SAMPLES_FOR_ANALYSIS : ℕ := MAX_SAMPLES / 3

/-- `MIN_SIGNAL_RANGE = 0.0015`. -/
def MIN_SIGNAL_RANGE : ℚ := 15 / 10000

/-- `MAX_SIGNAL_STD_DEV_RATIO = 0.35`. -/
def MAX_SIGNAL_STD_DEV_RATIO : ℚ := 35 / 100

/-- `MIN_CROSSINGS_FOR_RAW_BPM = 4`. -/
def MIN_CROSSINGS_FOR_RAW_BPM : ℕ := 4

/-- `RAW_BPM_VALIDITY_WINDOW_MS = 2000`. -/
def RAW_BPM_VALIDITY_WINDOW_MS : ℚ := 2000

/-- `RAW_BPM_CONSISTENCY_THRESHOLD = 10`. -/
def RAW_BPM_CONSISTENCY_THRESHOLD : ℚ := 10

/-- `MIN_CONSISTENT_RAW_BPMS_FOR_CANDIDATE = 3`. -/
def MIN_CONSISTENT_RAW_BPMS_FOR_CANDIDATE : ℕ := 3

/-- `STABLE_BPM_CANDIDATE_BUFFER_SIZE = 5`. -/
def STABLE_BPM_CANDIDATE_BUFFER_SIZE : ℕ := 5

/-- `REQUIRED_STABILITY_COUNT = 3`. -/
def REQUIRED_STABILITY_COUNT : ℕ := 3

/-- `BPM_STABILITY_TOLERANCE = 3`. -/
def BPM_STABILITY_TOLERANCE : ℚ := 3

/-- A JS number that may be NaN: `none` is NaN, `some q` a (finite) number. -/
abbrev JSNum := Option ℚ

/-- JS addition: NaN absorbs. -/
def jsAdd : JSNum → JSNum → JSNum
  | some a, some b => some (a + b)
  | _, _ => none

/-- JS division.  NaN absorbs; a zero divisor (an infinity or NaN in JS) is
also mapped to the non-numeric value — every division performed by the
analysed code has a nonzero finite divisor, so this distinction is inert. -/
def jsDiv : JSNum → JSNum → JSNum
  | some a, some b => if b = 0 then none else some (a / b)
  | _, _ => none

/-- JS `>` comparison: any comparison with NaN is false. -/
def jsGt : JSNum → JSNum → Bool
  | some a, some b => decide (b < a)
  | _, _ => false

/-- `Math.sqrt`: NaN for NaN or negative input.  The nonnegative branch uses a
rational stand-in (`Rat.sqrt`); in the analysed code the argument of the only
`Math.sqrt` call is always NaN on nonempty input (see `calculateStdDev`), so
the numeric branch is never load-bearing. -/
def jsSqrt : JSNum → JSNum
  | none => none
  | some q => if q < 0 then none else some (Rat.sqrt q)

/-- The source's `Math.pow(val - mean)` call: the second argument is missing,
`undefined` converts to NaN, and `Math.pow` with a NaN exponent returns NaN
for every base (ECMA-262 Number::exponentiate). -/
def powMissingExponent (_base : JSNum) : JSNum := none

/-- `calculateStdDev(arr, mean)`: returns 0 on an empty array, otherwise
`Math.sqrt(arr.reduce((acc, val) => acc + Math.pow(val - mean), 0) / arr.length)`. -/
def calculateStdDev (arr : List ℚ) (mean : ℚ) : JSNum :=
  if arr.length = 0 then some 0
  else
    let variance :=
      jsDiv (arr.foldl (fun acc val => jsAdd acc (powMissingExponent (some (val - mean)))) (some 0))
        (some (arr.length : ℚ))
    jsSqrt variance

/-- Ascending numeric sort, the effect of `sort((a, b) => a - b)` (stable). -/
def qSort (l : List ℚ) : List ℚ := List.insertionSort (· ≤ ·) l

/-- `calculateMedian(arr)`.  The JS guard filters out non-numeric entries and
NaN before sorting; in this embedding the lists fed to it contain only
rationals, so that filter retains every element.  The dead
`return sortedArr[0] || null` branch (JS: value `0` is falsy) is kept. -/
def calculateMedian (arr : List ℚ) : Option ℚ :=
  if arr.length = 0 then none
  else
    let sortedArr := qSort arr
    if sortedArr.length = 0 then none
    else
      let mid := sortedArr.length / 2
      if sortedArr.length % 2 = 0 then
        if mid = 0 ∨ sortedArr.length < 2 then
          if sortedArr.getD 0 0 = 0 then none else some (sortedArr.getD 0 0)
        else some ((sortedArr.getD (mid - 1) 0 + sortedArr.getD mid 0) / 2)
      else some (sortedArr.getD mid 0)

/-- Statistics derived from the current buffer by `analyzeData`. -/
structure DataStats where
  average : ℚ
  min : ℚ
  max : ℚ
  range : ℚ
  crossings : List Sample
deriving DecidableEq

/-- The scan loop of `getAverageCrossings`: `previousSample` starts at the
first sample, and a sample is recorded when its value is strictly above the
average while the previous sample's value was at or below it. -/
def crossLoop (average : ℚ) (prev : Sample) : List Sample → List Sample
  | [] => []
  | cur :: rest =>
    if average < cur.value ∧ prev.value ≤ average then cur :: crossLoop average cur rest
    else crossLoop average cur rest

/-- `getAverageCrossings(samples, average)` (upward mean-crossing variant). -/
def getAverageCrossings (samples : List Sample) (average : ℚ) : List Sample :=
  if samples.length < 2 then []
  else
    match samples with
    | [] => []
    | first :: rest => crossLoop average first rest

/-- One step of the `forEach` loop of `analyzeData` maintaining the running
`(min, max)` pair: the min shrinks when `sample.value < min`, the max grows
when `sample.value > max`. -/
def minmaxStep (p : ℚ × ℚ) (sample : Sample) : ℚ × ℚ :=
  (if sample.value < p.1 then sample.value else p.1,
   if p.2 < sample.value then sample.value else p.2)

/-- `analyzeData(samples)`: average, extrema, range and the crossing events. -/
def analyzeData : List Sample → DataStats
  | [] => ⟨0, 0, 0, 0, []⟩
  | s0 :: rest =>
    let samples := s0 :: rest
    let average := (samples.map Sample.value).foldl (· + ·) 0 / (samples.length : ℚ)
    let mm := samples.foldl minmaxStep (s0.value, s0.value)
    ⟨average, mm.1, mm.2, mm.2 - mm.1, getAverageCrossings samples average⟩

/-- The quality verdict `{ good, status }`. -/
structure SignalQuality where
  good : Bool
  status : String
deriving DecidableEq

/-- `analyzeSignalQuality(samples, dataStats)`: the pure quality gate. -/
def analyzeSignalQuality (samples : List Sample) (dataStats : DataStats) : SignalQuality :=
  if samples.length < MIN_SAMPLES_FOR_ANALYSIS then ⟨false, "Analyzing..."⟩
  else if dataStats.range < MIN_SIGNAL_RANGE then ⟨false, "Low Signal (Place finger firmly)"⟩
  else if 0 < dataStats.range ∧
      jsGt (jsDiv (calculateStdDev (samples.map Sample.value) dataStats.average)
        (some dataStats.range)) (some MAX_SIGNAL_STD_DEV_RATIO) = true then
    ⟨false, "Noisy Signal (Hold still)"⟩
  else if dataStats.crossings.length < MIN_CROSSINGS_FOR_RAW_BPM then ⟨false, "Detecting Pulse..."⟩
  else ⟨true, "Good Signal"⟩

/-- `calculateBpm(crossingSamples)`: median inter-crossing interval → BPM.
A `null` median would satisfy the JS test `medianInterval <= 0` (null
coerces to 0), so it also yields `null`. -/
def calculateBpm (crossingSamples : List Sample) : Option ℚ :=
  if crossingSamples.length < 2 then none
  else
    let timeDifferences := (crossingSamples.zip crossingSamples.tail).map fun p => p.2.time - p.1.time
    if timeDifferences.length = 0 then none
    else
      let physiologicallyPlausibleIntervals :=
        timeDifferences.filter fun dt => decide (270 < dt ∧ dt < 2000)
      if physiologicallyPlausibleIntervals.length < 1 then none
      else
        match calculateMedian physiologicallyPlausibleIntervals with
        | none => none
        | some medianInterval =>
          if medianInterval ≤ 0 then none else some (60000 / medianInterval)

/-- The caller's acceptance test for a raw BPM (line 326): `30 <= bpm <= 220`. -/
def rawBpmAccepted (bpm : ℚ) : Bool := decide (30 ≤ bpm ∧ bpm ≤ 220)

/-- One retained raw observation `{ bpm, time, range }` in `recentValidRawBpms`. -/
structure RawObs where
  bpm : ℚ
  time : ℚ
  range : ℚ
deriving DecidableEq

/-- `Math.min(...arr)` over a nonempty spread (the guard ensures nonemptiness). -/
def listMin : List ℚ → ℚ
  | [] => 0
  | x :: xs => xs.foldl (fun a b => if b < a then b else a) x

/-- `Math.max(...arr)` over a nonempty spread. -/
def listMax : List ℚ → ℚ
  | [] => 0
  | x :: xs => xs.foldl (fun a b => if a < b then b else a) x

/-- `Math.round`: floor of the argument plus one half. -/
def jsRound (q : ℚ) : ℤ := ⌊q + 1 / 2⌋

/-- The sample-buffer push of `processFrame` (lines 296-299): append, then
`shift()` exactly once when the length exceeds `MAX_SAMPLES`. -/
def pushSample (buf : List Sample) (s : Sample) : List Sample :=
  let b := buf ++ [s]
  if MAX_SAMPLES < b.length then b.tail else b

/-- Lines 338-349: when the retained raw BPMs agree within the consistency
threshold, push their median — if truthy — into the bounded candidate buffer
(capacity `STABLE_BPM_CANDIDATE_BUFFER_SIZE`, one `shift()` on overflow);
otherwise leave the buffer alone. -/
def candidateBufferStep (recentBpmsOnly : List ℚ) (candBuf : List ℚ) : List ℚ :=
  if listMax recentBpmsOnly - listMin recentBpmsOnly ≤ RAW_BPM_CONSISTENCY_THRESHOLD then
    match calculateMedian recentBpmsOnly with
    | some candidateMedianBpm =>
      if candidateMedianBpm = 0 then candBuf
      else if STABLE_BPM_CANDIDATE_BUFFER_SIZE < (candBuf ++ [candidateMedianBpm]).length then
        (candBuf ++ [candidateMedianBpm]).tail
      else candBuf ++ [candidateMedianBpm]
    | none => candBuf
  else candBuf

/-- The consistency-filter block of `processFrame` (lines 328-350), reached
when a raw BPM has been accepted: append the observation `{bpm, time, range}`,
evict the stale ones, and when at least
`MIN_CONSISTENT_RAW_BPMS_FOR_CANDIDATE` remain, run `candidateBufferStep`.
Returns the new `recentValidRawBpms` and `stableBpmCandidateBuffer`. -/
def consistencyStep (window : List RawObs) (candBuf : List ℚ) (bpm range now : ℚ) :
    List RawObs × List ℚ :=
  let recentValidRawBpms := (window ++ [(⟨bpm, now, range⟩ : RawObs)]).filter
    fun rb => decide (now - rb.time < RAW_BPM_VALIDITY_WINDOW_MS)
  if MIN_CONSISTENT_RAW_BPMS_FOR_CANDIDATE ≤ recentValidRawBpms.length then
    (recentValidRawBpms, candidateBufferStep (recentValidRawBpms.map RawObs.bpm) candBuf)
  else (recentValidRawBpms, candBuf)

/-- What `processFrame` hands to `setBpmDisplay`: a locked integer BPM, a
tentative candidate (rendered `Math.round(c) + "?"` in JS), or a status
string. -/
inductive DisplayValue where
  | locked (n : ℤ)
  | tentative (n : ℤ)
  | status (s : String)
deriving DecidableEq

/-- The not-locked display choice of lines 385-391: an existing lock wins,
else the rounded forming candidate, else `"Calculating..."`. -/
def displayWhenNotLocked (lockedBpm : Option ℤ) (cand : Option ℚ) : DisplayValue :=
  match lockedBpm with
  | some n => .locked n
  | none =>
    match cand with
    | some c => .tentative (jsRound c)
    | none => .status "Calculating..."

/-- Output of one pass through the stabilizer block (lines 357-401). -/
structure StabResult where
  candidate : Option ℚ
  counter : ℕ
  lockedBpm : Option ℤ
  display : Option DisplayValue
deriving DecidableEq

/-- The stabilizer / lock block of `processFrame` (lines 357-401), operating
on the candidate-median buffer, the current stable candidate, the stability
counter and the locked BPM.  The JS truthiness guard `if (medianOfCandidates)`
is kept: a `null` or `0` median leaves the state untouched and displays
nothing. -/
def stabilizerStep (buffer : List ℚ) (cand : Option ℚ) (cnt : ℕ) (lockedBpm : Option ℤ) :
    StabResult :=
  if REQUIRED_STABILITY_COUNT ≤ buffer.length then
    match calculateMedian buffer with
    | none => ⟨cand, cnt, lockedBpm, none⟩
    | some medianOfCandidates =>
      if medianOfCandidates = 0 then ⟨cand, cnt, lockedBpm, none⟩
      else
        let next : ℚ × ℕ :=
          match cand with
          | none => (medianOfCandidates, 1)
          | some c =>
            if |medianOfCandidates - c| ≤ BPM_STABILITY_TOLERANCE then
              (c * (7 / 10) + medianOfCandidates * (3 / 10), cnt + 1)
            else (medianOfCandidates, 1)
        if REQUIRED_STABILITY_COUNT ≤ next.2 then
          ⟨some next.1, next.2, some (jsRound next.1), some (.locked (jsRound next.1))⟩
        else ⟨some next.1, next.2, lockedBpm, some (displayWhenNotLocked lockedBpm (some next.1))⟩
  else
    match lockedBpm with
    | some n => ⟨cand, cnt, lockedBpm, some (.locked n)⟩
    | none => ⟨cand, cnt, lockedBpm, some (.status "Detecting...")⟩

/-- The module-level mutable state of the engine. -/
structure EngineState where
  sampleBuffer : List Sample
  recentValidRawBpms : List RawObs
  stableBpmCandidateBuffer : List ℚ
  currentStableBpmCandidate : Option ℚ
  currentStabilityCounter : ℕ
  lockedBpm : Option ℤ
  lastSignalQualityStatus : String
deriving DecidableEq

/-- `resetMeasurementState(clearLocked)`: clears the working buffers, the
candidate and the counter; clears `lockedBpm` only when asked. -/
def resetMeasurementState (clearLocked : Bool) (s : EngineState) : EngineState :=
  { s with
    recentValidRawBpms := []
    stableBpmCandidateBuffer := []
    currentStableBpmCandidate := none
    currentStabilityCounter := 0
    lockedBpm := if clearLocked then none else s.lockedBpm
    lastSignalQualityStatus := "" }

/-- The sample buffer after this tick's push. -/
def tickBuffer (s : EngineState) (value currentTime : ℚ) : List Sample :=
  pushSample s.sampleBuffer ⟨value, currentTime⟩

/-- One tick of `processFrame` from the point the fresh sample is pushed
(line 296) to the end (line 402), with the DOM/video plumbing outside the
model.  Returns the new state and the value handed to `setBpmDisplay`, if
any (the non-good branch only updates the display on a status change, and a
falsy median displays nothing). -/
def processTick (s : EngineState) (value currentTime : ℚ) :
    EngineState × Option DisplayValue :=
  let buf := tickBuffer s value currentTime
  let dataStats := analyzeData buf
  let signal := analyzeSignalQuality buf dataStats
  if signal.good = false then
    let changed := signal.status ≠ s.lastSignalQualityStatus
    let disp : Option DisplayValue := if changed then some (.status signal.status) else none
    let s1 := { s with
      sampleBuffer := buf
      lastSignalQualityStatus := if changed then signal.status else s.lastSignalQualityStatus }
    if s1.lockedBpm ≠ none then (s1, disp)
    else (resetMeasurementState false s1, disp)
  else
    let s1 := { s with sampleBuffer := buf, lastSignalQualityStatus := signal.status }
    let rawBpm := calculateBpm dataStats.crossings
    let s2 :=
      match rawBpm with
      | some b =>
        if rawBpmAccepted b then
          let wc := consistencyStep s1.recentValidRawBpms s1.stableBpmCandidateBuffer b
            dataStats.range currentTime
          { s1 with recentValidRawBpms := wc.1, stableBpmCandidateBuffer := wc.2 }
        else s1
      | none => s1
    let r := stabilizerStep s2.stableBpmCandidateBuffer s2.currentStableBpmCandidate
      s2.currentStabilityCounter s2.lockedBpm
    ({ s2 with
        currentStableBpmCandidate := r.candidate
        currentStabilityCounter := r.counter
        lockedBpm := r.lockedBpm },
      r.display)

/-- The raw-BPM estimator as the specification words it: no estimate below 2
events; consecutive inter-event differences; keep those strictly between 270
and 2000 ms; no estimate when none remain or the median is non-positive or
non-numeric; otherwise 60000 divided by the median interval. -/
def rawBpmEstimatorSpec (events : List Sample) : Option ℚ :=
  if events.length < 2 then none
  else
    let diffs := (events.zip events.tail).map fun p => p.2.time - p.1.time
    let kept := diffs.filter fun dt => decide (270 < dt ∧ dt < 2000)
    if kept = [] then none
    else
      match calculateMedian kept with
      | none => none
      | some m => if m ≤ 0 then none else some (60000 / m)

/-- The mathematical variance of a list of values around the mean given by
`analyzeData` — the specification's notion of standard deviation, squared
(kept squared to stay inside ℚ). -/
def specVariance (vals : List ℚ) (mean : ℚ) : ℚ :=
  ((vals.map fun v => (v - mean) ^ 2).foldl (· + ·) 0) / (vals.length : ℚ)

/-- The specification's noise test `stdDev / range > MAX_SIGNAL_STD_DEV_RATIO`,
phrased on squares to avoid the irrational square root: with `range > 0` both
are equivalent. -/
def specNoiseExceeded (samples : List Sample) : Prop :=
  MAX_SIGNAL_STD_DEV_RATIO ^ 2 * (analyzeData samples).range ^ 2 <
    specVariance (samples.map Sample.value) (analyzeData samples).average

/-- A concrete 100-sample buffer: fifty samples at brightness 0 followed by
fifty at brightness 1.  Its range is 1 and its true standard deviation is
1/2, so the spec's noise test fires. -/
def noisyBuffer : List Sample :=
  List.replicate 50 ⟨0, 0⟩ ++ List.replicate 50 ⟨1, 0⟩

/-- Scenario A of the specification: 301 samples with strictly increasing
distinct values. -/
def scenarioA : List Sample :=
  (List.range 301).map fun i : ℕ => ⟨(i : ℚ), (i : ℚ)⟩

/-! ### Helper lemmas -/

lemma MIN_SAMPLES_FOR_ANALYSIS_eq : MIN_SAMPLES_FOR_ANALYSIS = 100 := rfl

lemma jsAdd_none (x : JSNum) : jsAdd x none = none := by cases x <;> rfl

lemma foldl_jsAdd_pow_none (mean : ℚ) :
    ∀ (l : List ℚ) (acc : JSNum), l ≠ [] →
      l.foldl (fun acc val => jsAdd acc (powMissingExponent (some (val - mean)))) acc = none := by
  intro l
  induction l with
  | nil => intro acc h; exact absurd rfl h
  | cons v tl ih =>
    intro acc _
    rcases eq_or_ne tl [] with h | h
    · subst h
      simp [List.foldl, powMissingExponent, jsAdd_none]
    · simp only [List.foldl]
      exact ih _ h

/-- With the one-argument `Math.pow` slip, `calculateStdDev` yields NaN on
every nonempty input. -/
lemma calculateStdDev_nonempty (arr : List ℚ) (mean : ℚ) (h : arr ≠ []) :
    calculateStdDev arr mean = none := by
  unfold calculateStdDev
  rw [if_neg (by simpa [List.length_eq_zero] using h)]
  rw [foldl_jsAdd_pow_none mean arr (some 0) h]
  rfl

/-- The gate yields one of exactly five verdicts. -/
lemma gate_cases (samples : List Sample) (ds : DataStats) :
    analyzeSignalQuality samples ds = ⟨false, "Analyzing..."⟩ ∨
    analyzeSignalQuality samples ds = ⟨false, "Low Signal (Place finger firmly)"⟩ ∨
    analyzeSignalQuality samples ds = ⟨false, "Noisy Signal (Hold still)"⟩ ∨
    analyzeSignalQuality samples ds = ⟨false, "Detecting Pulse..."⟩ ∨
    analyzeSignalQuality samples ds = ⟨true, "Good Signal"⟩ := by
  unfold analyzeSignalQuality
  split_ifs <;> simp

/-- The gate never reaches the noisy branch: its standard deviation is NaN. -/
lemma gate_never_noisy (samples : List Sample) (ds : DataStats) :
    (analyzeSignalQuality samples ds).status ≠ "Noisy Signal (Hold still)" := by
  unfold analyzeSignalQuality
  split_ifs with h1 h2 h3 h4
  · decide
  · decide
  · exfalso
    have hne : samples ≠ [] := by
      intro he
      rw [he] at h1
      exact h1 (by decide)
    have hmap : samples.map Sample.value ≠ [] := by
      simpa [List.map_eq_nil_iff] using hne
    rw [calculateStdDev_nonempty _ _ hmap] at h3
    simp [jsDiv, jsGt] at h3
  · decide
  · decide

/-- Folding over a replicated element fixes any fixed point of the step. -/
lemma foldl_fix {α β : Type} (g : β → α → β) (c : β) (s : α) (h : g c s = c) :
    ∀ n : ℕ, List.foldl g c (List.replicate n s) = c := by
  intro n
  induction n with
  | zero => rfl
  | succ n ih => rw [List.replicate_succ, List.foldl_cons, h, ih]

lemma foldl_add_replicate (n : ℕ) (v : ℚ) :
    ∀ i : ℚ, List.foldl (· + ·) i (List.replicate n v) = i + n * v := by
  induction n with
  | zero => intro i; simp
  | succ n ih =>
    intro i
    rw [List.replicate_succ, List.foldl_cons, ih]
    push_cast
    ring

/-- A run of identical samples that do not satisfy the crossing test is
skipped by the scan loop. -/
lemma crossLoop_replicate_skip (average : ℚ) (s : Sample)
    (h : ¬(average < s.value ∧ s.value ≤ average)) (rest : List Sample) :
    ∀ n : ℕ, crossLoop average s (List.replicate n s ++ rest) = crossLoop average s rest := by
  intro n
  induction n with
  | zero => rfl
  | succ n ih => rw [List.replicate_succ, List.cons_append, crossLoop, if_neg h, ih]

/-- Like `crossLoop_replicate_skip` with nothing after the run. -/
lemma crossLoop_replicate_nil (average : ℚ) (s : Sample)
    (h : ¬(average < s.value ∧ s.value ≤ average)) (n : ℕ) :
    crossLoop average s (List.replicate n s) = [] := by
  rw [← List.append_nil (List.replicate n s), crossLoop_replicate_skip average s h [] n]
  rfl

/-- The scan loop records exactly the samples strictly above the average whose
predecessor was at or below it. -/
lemma crossLoop_eq_filterMap (average : ℚ) :
    ∀ (l : List Sample) (prev : Sample),
      crossLoop average prev l =
        ((prev :: l).zip l).filterMap fun p =>
          if average < p.2.value ∧ p.1.value ≤ average then some p.2 else none := by
  intro l
  induction l with
  | nil => intro prev; rfl
  | cons cur rest ih =>
    intro prev
    rw [List.zip_cons_cons, List.filterMap_cons, crossLoop]
    split_ifs with h
    · simp only [if_pos h, ih cur]
    · simp only [if_neg h, ih cur]

/-- A constant buffer at the analysis threshold: its range is zero. -/
def lowBuffer : List Sample := List.replicate 100 ⟨0, 0⟩

lemma lowBuffer_cons : lowBuffer = ⟨0, 0⟩ :: List.replicate 99 ⟨0, 0⟩ := by
  rw [lowBuffer, show (100 : ℕ) = 99 + 1 from rfl, List.replicate_succ]

lemma minmaxStep_00 : minmaxStep (0, 0) (⟨0, 0⟩ : Sample) = (0, 0) := by
  simp [minmaxStep]

lemma analyzeData_lowBuffer : analyzeData lowBuffer = ⟨0, 0, 0, 0, []⟩ := by
  rw [lowBuffer_cons]
  simp only [analyzeData]
  have havg : List.foldl (· + ·) (0 : ℚ)
      (List.map Sample.value ((⟨0, 0⟩ : Sample) :: List.replicate 99 ⟨0, 0⟩)) /
      (((⟨0, 0⟩ : Sample) :: List.replicate 99 (⟨0, 0⟩ : Sample)).length : ℚ) = 0 := by
    rw [List.map_cons, List.map_replicate, List.foldl_cons, foldl_add_replicate]
    norm_num
  have hmm : List.foldl minmaxStep ((⟨0, 0⟩ : Sample).value, (⟨0, 0⟩ : Sample).value)
      ((⟨0, 0⟩ : Sample) :: List.replicate 99 ⟨0, 0⟩) = (0, 0) := by
    rw [List.foldl_cons]
    exact foldl_fix _ _ _ minmaxStep_00 99
  have hcross : getAverageCrossings ((⟨0, 0⟩ : Sample) :: List.replicate 99 ⟨0, 0⟩) 0 = [] := by
    rw [getAverageCrossings, if_neg (by simp)]
    exact crossLoop_replicate_nil 0 ⟨0, 0⟩ (by norm_num) 99
  rw [havg, hmm, hcross]
  norm_num

lemma noisyBuffer_cons :
    noisyBuffer = ⟨0, 0⟩ :: (List.replicate 49 ⟨0, 0⟩ ++ List.replicate 50 ⟨1, 0⟩) := by
  rw [noisyBuffer, show (50 : ℕ) = 49 + 1 from rfl, List.replicate_succ, List.cons_append]

lemma minmaxStep_01 : minmaxStep (0, 0) (⟨1, 0⟩ : Sample) = (0, 1) := by
  norm_num [minmaxStep]

lemma minmaxStep_11 : minmaxStep (0, 1) (⟨1, 0⟩ : Sample) = (0, 1) := by
  norm_num [minmaxStep]

lemma analyzeData_noisyBuffer :
    analyzeData noisyBuffer = ⟨1 / 2, 0, 1, 1, [⟨1, 0⟩]⟩ := by
  rw [noisyBuffer_cons]
  simp only [analyzeData]
  have havg : List.foldl (· + ·) (0 : ℚ)
      (List.map Sample.value
        ((⟨0, 0⟩ : Sample) :: (List.replicate 49 ⟨0, 0⟩ ++ List.replicate 50 ⟨1, 0⟩))) /
      (((⟨0, 0⟩ : Sample) :: (List.replicate 49 (⟨0, 0⟩ : Sample) ++
          List.replicate 50 (⟨1, 0⟩ : Sample))).length : ℚ) = 1 / 2 := by
    rw [List.map_cons, List.map_append, List.map_replicate, List.map_replicate,
      List.foldl_cons, List.foldl_append, foldl_add_replicate, foldl_add_replicate]
    norm_num
  have hmm : List.foldl minmaxStep ((⟨0, 0⟩ : Sample).value, (⟨0, 0⟩ : Sample).value)
      ((⟨0, 0⟩ : Sample) :: (List.replicate 49 ⟨0, 0⟩ ++ List.replicate 50 ⟨1, 0⟩)) = (0, 1) := by
    rw [List.foldl_cons]
    show List.foldl minmaxStep (minmaxStep (0, 0) ⟨0, 0⟩) _ = (0, 1)
    rw [minmaxStep_00, List.foldl_append, foldl_fix _ _ _ minmaxStep_00,
      show List.replicate 50 (⟨1, 0⟩ : Sample) = ⟨1, 0⟩ :: List.replicate 49 ⟨1, 0⟩ from rfl,
      List.foldl_cons, minmaxStep_01]
    exact foldl_fix _ _ _ minmaxStep_11 49
  have hcross : getAverageCrossings
      ((⟨0, 0⟩ : Sample) :: (List.replicate 49 ⟨0, 0⟩ ++ List.replicate 50 ⟨1, 0⟩))
      (1 / 2) = [⟨1, 0⟩] := by
    rw [getAverageCrossings, if_neg (by simp)]
    rw [crossLoop_replicate_skip (1 / 2) ⟨0, 0⟩ (by norm_num) _ 49,
      show List.replicate 50 (⟨1, 0⟩ : Sample) = ⟨1, 0⟩ :: List.replicate 49 ⟨1, 0⟩ from rfl,
      crossLoop, if_pos (by norm_num)]
    rw [crossLoop_replicate_nil (1 / 2) ⟨1, 0⟩ (by norm_num) 49]
  rw [havg, hmm, hcross]
  norm_num

lemma pushSample_of_lt (buf : List Sample) (s : Sample) (h : buf.length < MAX_SAMPLES) :
    pushSample buf s = buf ++ [s] := by
  unfold pushSample
  rw [if_neg]
  simp only [List.length_append, List.length_singleton]
  omega

lemma pushSample_of_le (buf : List Sample) (s : Sample) (h : MAX_SAMPLES ≤ buf.length) :
    pushSample buf s = (buf ++ [s]).tail := by
  unfold pushSample
  rw [if_pos]
  simp only [List.length_append, List.length_singleton]
  omega

/-- Every push sequence leaves the most recent `MAX_SAMPLES` elements, in
order, once an accumulator within capacity is given. -/
lemma foldl_pushSample_drop :
    ∀ (xs : List Sample) (buf : List Sample), buf.length ≤ MAX_SAMPLES →
      xs.foldl pushSample buf = (buf ++ xs).drop (buf.length + xs.length - MAX_SAMPLES) := by
  intro xs
  induction xs with
  | nil =>
    intro buf h
    rw [List.foldl_nil, List.append_nil, List.length_nil,
      Nat.add_zero, Nat.sub_eq_zero_of_le h, List.drop_zero]
  | cons x xs ih =>
    intro buf h
    rw [List.foldl_cons]
    rcases lt_or_ge buf.length MAX_SAMPLES with hlt | hge
    · rw [pushSample_of_lt _ _ hlt, ih (buf ++ [x]) (by simp; omega)]
      have hl : (buf ++ [x]) ++ xs = buf ++ x :: xs := by simp
      have hn : (buf ++ [x]).length + xs.length - MAX_SAMPLES
          = buf.length + (x :: xs).length - MAX_SAMPLES := by
        simp
        omega
      rw [hl, hn]
    · have hb : (buf ++ [x]).tail = (buf ++ [x]).drop 1 := (List.drop_one _).symm
      rw [pushSample_of_le _ _ hge, hb, ih ((buf ++ [x]).drop 1) (by simp; omega)]
      have h1 : ((buf ++ [x]).drop 1) ++ xs = ((buf ++ [x]) ++ xs).drop 1 :=
        (List.drop_append_of_le_length (by simp)).symm
      rw [h1, List.drop_drop]
      have hl : (buf ++ [x]) ++ xs = buf ++ x :: xs := by simp
      have hn : 1 + (((buf ++ [x]).drop 1).length + xs.length - MAX_SAMPLES)
          = buf.length + (x :: xs).length - MAX_SAMPLES := by
        simp
        omega
      rw [hl, hn]

lemma getD_pos (l : List ℚ) (i : ℕ) (hi : i < l.length) (hpos : ∀ x ∈ l, 0 < x) :
    0 < l.getD i 0 := by
  rw [List.getD_eq_getElem?_getD, List.getElem?_eq_getElem hi]
  exact hpos _ (List.getElem_mem hi)

/-- The median of a nonempty list of positive rationals exists and is
positive (so it passes every JS truthiness guard in the pipeline). -/
lemma calculateMedian_pos (l : List ℚ) (h0 : l ≠ []) (hpos : ∀ x ∈ l, 0 < x) :
    ∃ m, calculateMedian l = some m ∧ 0 < m := by
  have hlen : ¬(l.length = 0) := by simpa [List.length_eq_zero] using h0
  have hsl : (qSort l).length = l.length := (List.perm_insertionSort _ l).length_eq
  have hmem : ∀ x ∈ qSort l, 0 < x := fun x hx =>
    hpos x ((List.perm_insertionSort _ l).mem_iff.mp hx)
  have hslne : ¬((qSort l).length = 0) := by rw [hsl]; exact hlen
  simp only [calculateMedian]
  rw [if_neg hlen, if_neg hslne]
  by_cases hpar : (qSort l).length % 2 = 0
  · rw [if_pos hpar]
    have h2 : 2 ≤ (qSort l).length := by omega
    rw [if_neg (by push_neg; omega)]
    refine ⟨_, rfl, ?_⟩
    have g1 : 0 < (qSort l).getD ((qSort l).length / 2 - 1) 0 :=
      getD_pos _ _ (by omega) hmem
    have g2 : 0 < (qSort l).getD ((qSort l).length / 2) 0 :=
      getD_pos _ _ (by omega) hmem
    positivity
  · rw [if_neg hpar]
    refine ⟨_, rfl, ?_⟩
    exact getD_pos _ _ (by omega) hmem

/-! ### Claim theorems -/

/-- C5: for every sample buffer with at least 2 samples and its current
average, the crossing detector records, in scan order, exactly those samples
whose value is strictly greater than the average while the immediately
preceding sample's value is less-than-or-equal to the average (upward
crossings). -/
theorem claim_C5_upward_crossings (samples : List Sample) (average : ℚ)
    (h : 2 ≤ samples.length) :
    getAverageCrossings samples average =
      (samples.zip samples.tail).filterMap fun p =>
        if average < p.2.value ∧ p.1.value ≤ average then some p.2 else none := by
  match samples with
  | [] => simp at h
  | s0 :: rest =>
    rw [getAverageCrossings, if_neg (by simp at h ⊢; omega)]
    show crossLoop average s0 rest = _
    rw [crossLoop_eq_filterMap]
    rfl

/-- Witness for C5 at a concrete two-sample buffer crossing upward. -/
theorem claim_C5_witness :
    getAverageCrossings [⟨0, 0⟩, ⟨1, 1⟩] (1 / 2) =
      (([⟨0, 0⟩, ⟨1, 1⟩] : List Sample).zip ([⟨0, 0⟩, ⟨1, 1⟩] : List Sample).tail).filterMap
        (fun p => if (1 / 2 : ℚ) < p.2.value ∧ p.1.value ≤ 1 / 2 then some p.2 else none) :=
  claim_C5_upward_crossings [⟨0, 0⟩, ⟨1, 1⟩] (1 / 2) (by simp)

/-- C6: the quality gate is a total function yielding exactly one of the five
verdicts (so it never throws), and when the range and the crossing count are
simultaneously below their thresholds with enough samples, precedence yields
LowSignal, never DetectingPulse. -/
theorem claim_C6_gate_precedence (samples : List Sample) :
    (analyzeSignalQuality samples (analyzeData samples) = ⟨false, "Analyzing..."⟩ ∨
     analyzeSignalQuality samples (analyzeData samples) = ⟨false, "Low Signal (Place finger firmly)"⟩ ∨
     analyzeSignalQuality samples (analyzeData samples) = ⟨false, "Noisy Signal (Hold still)"⟩ ∨
     analyzeSignalQuality samples (analyzeData samples) = ⟨false, "Detecting Pulse..."⟩ ∨
     analyzeSignalQuality samples (analyzeData samples) = ⟨true, "Good Signal"⟩) ∧
    (MIN_SAMPLES_FOR_ANALYSIS ≤ samples.length →
      (analyzeData samples).range < MIN_SIGNAL_RANGE →
      (analyzeData samples).crossings.length < MIN_CROSSINGS_FOR_RAW_BPM →
      analyzeSignalQuality samples (analyzeData samples) =
        ⟨false, "Low Signal (Place finger firmly)"⟩) := by
  refine ⟨gate_cases _ _, fun h1 h2 _ => ?_⟩
  unfold analyzeSignalQuality
  rw [if_neg (by omega), if_pos h2]

/-- Witness for C6: a constant 100-sample buffer has range 0 and no
crossings, and the verdict is LowSignal. -/
theorem claim_C6_witness :
    MIN_SAMPLES_FOR_ANALYSIS ≤ lowBuffer.length ∧
    (analyzeData lowBuffer).range < MIN_SIGNAL_RANGE ∧
    (analyzeData lowBuffer).crossings.length < MIN_CROSSINGS_FOR_RAW_BPM ∧
    analyzeSignalQuality lowBuffer (analyzeData lowBuffer) =
      ⟨false, "Low Signal (Place finger firmly)"⟩ := by
  have h1 : MIN_SAMPLES_FOR_ANALYSIS ≤ lowBuffer.length := by
    rw [MIN_SAMPLES_FOR_ANALYSIS_eq, lowBuffer]
    simp
  have h2 : (analyzeData lowBuffer).range < MIN_SIGNAL_RANGE := by
    rw [analyzeData_lowBuffer]
    norm_num [MIN_SIGNAL_RANGE]
  have h3 : (analyzeData lowBuffer).crossings.length < MIN_CROSSINGS_FOR_RAW_BPM := by
    rw [analyzeData_lowBuffer]
    norm_num [MIN_CROSSINGS_FOR_RAW_BPM]
  exact ⟨h1, h2, h3, (claim_C6_gate_precedence lowBuffer).2 h1 h2 h3⟩

/-- C8: the sample buffer never exceeds `MAX_SAMPLES`; a push onto a full
buffer drops exactly the single oldest element; a push onto a non-full buffer
drops nothing; after any push sequence from empty the buffer holds exactly
the most recent capacity samples in order; and Scenario A (301 distinct
pushes) leaves 300 samples whose first retained value is the 2nd pushed. -/
theorem claim_C8_buffer_bound :
    (∀ xs : List Sample, (xs.foldl pushSample []).length ≤ MAX_SAMPLES) ∧
    (∀ (buf : List Sample) (s : Sample), MAX_SAMPLES ≤ buf.length →
      pushSample buf s = (buf ++ [s]).tail) ∧
    (∀ (buf : List Sample) (s : Sample), buf.length < MAX_SAMPLES →
      pushSample buf s = buf ++ [s]) ∧
    (∀ xs : List Sample, xs.foldl pushSample [] = xs.drop (xs.length - MAX_SAMPLES)) ∧
    ((scenarioA.foldl pushSample []).length = MAX_SAMPLES ∧
     (scenarioA.foldl pushSample []).head? = some ⟨1, 1⟩) := by
  have hM : MAX_SAMPLES = 300 := rfl
  have hfold : ∀ xs : List Sample,
      xs.foldl pushSample [] = xs.drop (xs.length - MAX_SAMPLES) := by
    intro xs
    have h := foldl_pushSample_drop xs [] (by simp)
    simpa using h
  have hlenA : scenarioA.length = 301 := by
    rw [scenarioA, List.length_map, List.length_range]
  refine ⟨?_, pushSample_of_le, pushSample_of_lt, hfold, ?_, ?_⟩
  · intro xs
    rw [hfold xs, List.length_drop]
    omega
  · rw [hfold scenarioA, List.length_drop, hlenA]
    omega
  · rw [hfold scenarioA, hlenA, hM, List.head?_drop, scenarioA, List.getElem?_map,
      List.getElem?_range (by norm_num)]
    simp

/-- Witness for C8: a push onto a buffer below capacity appends. -/
theorem claim_C8_witness : pushSample [] ⟨0, 0⟩ = [⟨0, 0⟩] :=
  claim_C8_buffer_bound.2.2.1 [] ⟨0, 0⟩ (by norm_num [MAX_SAMPLES])

/-- C10: with the single-argument `Math.pow` call, `calculateStdDev` returns
NaN on every nonempty value list, and consequently the quality gate can never
return the noisy verdict — that branch is unreachable. -/
theorem claim_C10_stddev_nan :
    (∀ (vals : List ℚ) (mean : ℚ), vals ≠ [] → calculateStdDev vals mean = none) ∧
    (∀ (samples : List Sample) (ds : DataStats),
      (analyzeSignalQuality samples ds).status ≠ "Noisy Signal (Hold still)") :=
  ⟨calculateStdDev_nonempty, gate_never_noisy⟩

/-- Witness for C10 on a one-element list. -/
theorem claim_C10_witness : calculateStdDev [0] 0 = none :=
  claim_C10_stddev_nan.1 [0] 0 (by simp)

/-- C2 fails on the code (the code, not the claim, is at fault): on
`noisyBuffer` the specification's noise test fires — the true standard
deviation (1/2) over the range (1) exceeds `MAX_SIGNAL_STD_DEV_RATIO`
(0.35) — yet the gate's verdict is DetectingPulse, not Noisy, because
`calculateStdDev` returns NaN and the comparison is false. -/
theorem claim_C2_code_bug :
    specNoiseExceeded noisyBuffer ∧
    analyzeSignalQuality noisyBuffer (analyzeData noisyBuffer) =
      ⟨false, "Detecting Pulse..."⟩ := by
  constructor
  · unfold specNoiseExceeded
    rw [analyzeData_noisyBuffer]
    unfold specVariance
    rw [noisyBuffer_cons]
    simp only [List.map_cons, List.map_append, List.map_replicate, List.foldl_cons,
      List.foldl_append, foldl_add_replicate, List.length_map, List.length_cons,
      List.length_append, List.length_replicate]
    norm_num [ MAX_SIGNAL_STD_DEV_RATIO]
  · have hlen : ¬(noisyBuffer.length < MIN_SAMPLES_FOR_ANALYSIS) := by
      rw [MIN_SAMPLES_FOR_ANALYSIS_eq]
      simp [noisyBuffer]
    have hmapne : noisyBuffer.map Sample.value ≠ [] := by simp [noisyBuffer]
    rw [analyzeData_noisyBuffer]
    unfold analyzeSignalQuality
    rw [calculateStdDev_nonempty _ _ hmapne, if_neg hlen]
    norm_num [jsDiv, jsGt, MIN_SIGNAL_RANGE, MIN_CROSSINGS_FOR_RAW_BPM]

/-- C1: whenever the candidate buffer holds at least
`REQUIRED_STABILITY_COUNT` candidate medians (all positive, as every pushed
candidate median is), the stabilizer computes the median of the buffer and
updates exactly as specified: with no current candidate the median becomes
the candidate with counter 1; within tolerance the counter increments and
the candidate becomes `0.7·candidate + 0.3·median`; beyond tolerance the
candidate is replaced and the counter resets; and a counter of
`REQUIRED_STABILITY_COUNT` or more locks the rounded candidate and surfaces
exactly that integer. -/
lemma stabilizerStep_eq (buffer : List ℚ) (cand : Option ℚ) (cnt : ℕ) (lk : Option ℤ)
    (m : ℚ) (hlen : REQUIRED_STABILITY_COUNT ≤ buffer.length)
    (hm : calculateMedian buffer = some m) (hm0 : ¬(m = 0)) :
    stabilizerStep buffer cand cnt lk =
      (let next : ℚ × ℕ :=
        match cand with
        | none => (m, 1)
        | some c =>
          if |m - c| ≤ BPM_STABILITY_TOLERANCE then (c * (7 / 10) + m * (3 / 10), cnt + 1)
          else (m, 1)
      if REQUIRED_STABILITY_COUNT ≤ next.2 then
        ⟨some next.1, next.2, some (jsRound next.1), some (.locked (jsRound next.1))⟩
      else ⟨some next.1, next.2, lk, some (displayWhenNotLocked lk (some next.1))⟩) := by
  simp only [stabilizerStep, if_pos hlen, hm, if_neg hm0]

theorem claim_C1_stabilizer (buffer : List ℚ) (cand : Option ℚ) (cnt : ℕ)
    (lockedBpm : Option ℤ)
    (hlen : REQUIRED_STABILITY_COUNT ≤ buffer.length)
    (hpos : ∀ x ∈ buffer, 0 < x) :
    ∃ m, calculateMedian buffer = some m ∧
      (cand = none →
        stabilizerStep buffer cand cnt lockedBpm =
          ⟨some m, 1, lockedBpm, some (displayWhenNotLocked lockedBpm (some m))⟩) ∧
      (∀ c, cand = some c → |m - c| ≤ BPM_STABILITY_TOLERANCE →
        stabilizerStep buffer cand cnt lockedBpm =
          (if REQUIRED_STABILITY_COUNT ≤ cnt + 1 then
            ⟨some (c * (7 / 10) + m * (3 / 10)), cnt + 1,
              some (jsRound (c * (7 / 10) + m * (3 / 10))),
              some (.locked (jsRound (c * (7 / 10) + m * (3 / 10))))⟩
          else
            ⟨some (c * (7 / 10) + m * (3 / 10)), cnt + 1, lockedBpm,
              some (displayWhenNotLocked lockedBpm
                (some (c * (7 / 10) + m * (3 / 10))))⟩)) ∧
      (∀ c, cand = some c → BPM_STABILITY_TOLERANCE < |m - c| →
        stabilizerStep buffer cand cnt lockedBpm =
          ⟨some m, 1, lockedBpm, some (displayWhenNotLocked lockedBpm (some m))⟩) ∧
      (REQUIRED_STABILITY_COUNT ≤ (stabilizerStep buffer cand cnt lockedBpm).counter →
        ∃ c, (stabilizerStep buffer cand cnt lockedBpm).candidate = some c ∧
          (stabilizerStep buffer cand cnt lockedBpm).lockedBpm = some (jsRound c) ∧
          (stabilizerStep buffer cand cnt lockedBpm).display =
            some (.locked (jsRound c))) := by
  have hne : buffer ≠ [] := by
    intro he
    rw [he] at hlen
    simp [REQUIRED_STABILITY_COUNT] at hlen
  obtain ⟨m, hm, hmpos⟩ := calculateMedian_pos buffer hne hpos
  have hm0 : ¬(m = 0) := ne_of_gt hmpos
  have hnf := stabilizerStep_eq buffer cand cnt lockedBpm m hlen hm hm0
  refine ⟨m, hm, ?_, ?_, ?_, ?_⟩
  · rintro rfl
    rw [hnf]
    norm_num [REQUIRED_STABILITY_COUNT]
  · rintro c rfl htol
    rw [hnf]
    simp only [if_pos htol]
  · rintro c rfl htol
    rw [hnf]
    simp only [if_neg (not_le.mpr htol)]
    norm_num [REQUIRED_STABILITY_COUNT]
  · intro hcnt
    rw [hnf] at hcnt ⊢
    rcases cand with _ | c
    · simp [REQUIRED_STABILITY_COUNT] at hcnt
    · by_cases htol : |m - c| ≤ BPM_STABILITY_TOLERANCE
      · simp only [if_pos htol, Prod.fst, Prod.snd] at hcnt ⊢
        split_ifs at hcnt ⊢ with hreq
        · exact ⟨_, rfl, rfl, rfl⟩
        · simp at hcnt
          exact absurd hcnt hreq
      · simp only [if_neg htol] at hcnt
        simp [REQUIRED_STABILITY_COUNT] at hcnt

/-- Witness for C1: three candidate medians, no prior candidate — the median
72 becomes the stable candidate with counter 1. -/
theorem claim_C1_witness :
    ∃ m, calculateMedian [(72 : ℚ), 73, 71] = some m ∧
      stabilizerStep [(72 : ℚ), 73, 71] none 0 none =
        ⟨some m, 1, none, some (displayWhenNotLocked none (some m))⟩ := by
  obtain ⟨m, hm, h1, _, _, _⟩ :=
    claim_C1_stabilizer [(72 : ℚ), 73, 71] none 0 none
      (by norm_num [REQUIRED_STABILITY_COUNT])
      (by
        intro x hx
        simp at hx
        rcases hx with rfl | rfl | rfl <;> norm_num)
  exact ⟨m, hm, h1 rfl⟩

lemma consistencyStep_fst (window : List RawObs) (candBuf : List ℚ) (bpm range now : ℚ) :
    (consistencyStep window candBuf bpm range now).1 =
      (window ++ [(⟨bpm, now, range⟩ : RawObs)]).filter
        (fun rb => decide (now - rb.time < RAW_BPM_VALIDITY_WINDOW_MS)) := by
  simp only [consistencyStep]
  split_ifs <;> rfl

lemma consistencyStep_snd_of_le (window : List RawObs) (candBuf : List ℚ)
    (bpm range now : ℚ)
    (h : MIN_CONSISTENT_RAW_BPMS_FOR_CANDIDATE ≤
      ((window ++ [(⟨bpm, now, range⟩ : RawObs)]).filter
        (fun rb => decide (now - rb.time < RAW_BPM_VALIDITY_WINDOW_MS))).length) :
    (consistencyStep window candBuf bpm range now).2 =
      candidateBufferStep
        (((window ++ [(⟨bpm, now, range⟩ : RawObs)]).filter
          (fun rb => decide (now - rb.time < RAW_BPM_VALIDITY_WINDOW_MS))).map RawObs.bpm)
        candBuf := by
  simp only [consistencyStep]
  rw [if_pos h]

/-- C3: the consistency filter evicts, before it evaluates, exactly the
observations whose age reaches 2000 ms (an observation is retained iff its
age is strictly below the window); with at least 3 retained observations and
spread at most 10 it pushes their median into the capacity-5 FIFO candidate
buffer; a larger spread pushes nothing and leaves the window intact. -/
theorem claim_C3_consistency_filter (window : List RawObs) (candBuf : List ℚ)
    (bpm range now : ℚ)
    (hpos : ∀ rb ∈ window, 0 < rb.bpm) (hb : 0 < bpm)
    (hcb : candBuf.length ≤ STABLE_BPM_CANDIDATE_BUFFER_SIZE) :
    (∀ rb : RawObs, rb ∈ (consistencyStep window candBuf bpm range now).1 ↔
      (rb ∈ window ++ [(⟨bpm, now, range⟩ : RawObs)] ∧
        now - rb.time < RAW_BPM_VALIDITY_WINDOW_MS)) ∧
    (MIN_CONSISTENT_RAW_BPMS_FOR_CANDIDATE ≤
        (consistencyStep window candBuf bpm range now).1.length →
      listMax ((consistencyStep window candBuf bpm range now).1.map RawObs.bpm) -
          listMin ((consistencyStep window candBuf bpm range now).1.map RawObs.bpm) ≤
          RAW_BPM_CONSISTENCY_THRESHOLD →
      ∃ m, calculateMedian
            ((consistencyStep window candBuf bpm range now).1.map RawObs.bpm) = some m ∧
        (consistencyStep window candBuf bpm range now).2 =
          (candBuf ++ [m]).drop (candBuf.length + 1 - STABLE_BPM_CANDIDATE_BUFFER_SIZE) ∧
        (consistencyStep window candBuf bpm range now).2.length ≤
          STABLE_BPM_CANDIDATE_BUFFER_SIZE) ∧
    (MIN_CONSISTENT_RAW_BPMS_FOR_CANDIDATE ≤
        (consistencyStep window candBuf bpm range now).1.length →
      RAW_BPM_CONSISTENCY_THRESHOLD <
          listMax ((consistencyStep window candBuf bpm range now).1.map RawObs.bpm) -
          listMin ((consistencyStep window candBuf bpm range now).1.map RawObs.bpm) →
      (consistencyStep window candBuf bpm range now).2 = candBuf ∧
      (consistencyStep window candBuf bpm range now).1 =
        (window ++ [(⟨bpm, now, range⟩ : RawObs)]).filter
          (fun rb => decide (now - rb.time < RAW_BPM_VALIDITY_WINDOW_MS))) := by
  have hfst := consistencyStep_fst window candBuf bpm range now
  have hposw : ∀ x ∈ ((window ++ [(⟨bpm, now, range⟩ : RawObs)]).filter
      (fun rb => decide (now - rb.time < RAW_BPM_VALIDITY_WINDOW_MS))).map RawObs.bpm,
      0 < x := by
    intro x hx
    obtain ⟨rb, hrb, rfl⟩ := List.mem_map.mp hx
    have hrb2 : rb ∈ window ++ [(⟨bpm, now, range⟩ : RawObs)] := (List.mem_filter.mp hrb).1
    rcases List.mem_append.mp hrb2 with hin | hnew
    · exact hpos rb hin
    · rw [List.mem_singleton.mp hnew]
      exact hb
  refine ⟨?_, ?_, ?_⟩
  · intro rb
    rw [hfst, List.mem_filter, decide_eq_true_eq]
  · intro hlen hsp
    rw [hfst] at hlen hsp ⊢
    rw [consistencyStep_snd_of_le window candBuf bpm range now hlen]
    have hne : ((window ++ [(⟨bpm, now, range⟩ : RawObs)]).filter
        (fun rb => decide (now - rb.time < RAW_BPM_VALIDITY_WINDOW_MS))).map RawObs.bpm ≠
        [] := by
      intro he
      have := congrArg List.length he
      simp only [List.length_map, List.length_nil] at this
      rw [this] at hlen
      simp [MIN_CONSISTENT_RAW_BPMS_FOR_CANDIDATE] at hlen
    obtain ⟨m, hm, hmpos⟩ := calculateMedian_pos _ hne hposw
    refine ⟨m, hm, ?_, ?_⟩
    · unfold candidateBufferStep
      rw [if_pos hsp, hm]
      simp only [if_neg (ne_of_gt hmpos)]
      rw [List.length_append, List.length_singleton]
      rcases lt_or_ge candBuf.length STABLE_BPM_CANDIDATE_BUFFER_SIZE with hlt | hge
      · rw [if_neg (by omega), Nat.sub_eq_zero_of_le (by omega), List.drop_zero]
      · have h5 : candBuf.length = STABLE_BPM_CANDIDATE_BUFFER_SIZE := le_antisymm hcb hge
        rw [if_pos (by omega), ← List.drop_one]
        congr 1
        omega
    · unfold candidateBufferStep
      rw [if_pos hsp, hm]
      simp only [if_neg (ne_of_gt hmpos)]
      rw [List.length_append, List.length_singleton]
      split_ifs with h5
      · rw [List.length_tail, List.length_append, List.length_singleton]
        omega
      · rw [List.length_append, List.length_singleton]
        omega
  · intro hlen hsp
    rw [hfst] at hlen hsp
    rw [consistencyStep_snd_of_le window candBuf bpm range now hlen]
    refine ⟨?_, hfst⟩
    unfold candidateBufferStep
    rw [if_neg (not_le.mpr hsp)]

/-- Witness for C3: the freshly appended observation (age 0) is retained. -/
theorem claim_C3_witness :
    (⟨70, 0, 1⟩ : RawObs) ∈ (consistencyStep [] [] 70 1 0).1 ↔
      ((⟨70, 0, 1⟩ : RawObs) ∈ ([] : List RawObs) ++ [(⟨70, 0, 1⟩ : RawObs)] ∧
        (0 : ℚ) - (⟨70, 0, 1⟩ : RawObs).time < RAW_BPM_VALIDITY_WINDOW_MS) :=
  (claim_C3_consistency_filter [] [] 70 1 0 (by simp) (by norm_num) (by simp)).1 ⟨70, 0, 1⟩

/-- C4: the raw BPM estimator returns no estimate below 2 events, agrees
everywhere with the specification's description (consecutive differences,
keep those strictly between 270 and 2000 ms, no estimate when none remain or
the median is non-positive or non-numeric, else 60000 over the median);
events spaced exactly 833 ms apart give a BPM within 0.5 of 72; and a result
above 220 (from an 271 ms interval) is produced by the estimator — it is the
caller's acceptance test, not the estimator, that discards it. -/
theorem claim_C4_raw_bpm_estimator :
    (∀ cs : List Sample, cs.length < 2 → calculateBpm cs = none) ∧
    (∀ cs : List Sample, calculateBpm cs = rawBpmEstimatorSpec cs) ∧
    (calculateBpm [⟨0, 0⟩, ⟨0, 833⟩, ⟨0, 1666⟩] = some (60000 / 833) ∧
      |(60000 : ℚ) / 833 - 72| < 1 / 2) ∧
    (calculateBpm [⟨0, 0⟩, ⟨0, 271⟩] = some (60000 / 271) ∧
      (220 : ℚ) < 60000 / 271 ∧ rawBpmAccepted (60000 / 271) = false) := by
  have hspec : ∀ cs : List Sample, calculateBpm cs = rawBpmEstimatorSpec cs := by
    intro cs
    simp only [calculateBpm, rawBpmEstimatorSpec]
    by_cases h2 : cs.length < 2
    · rw [if_pos h2, if_pos h2]
    · rw [if_neg h2, if_neg h2]
      have hzl : ((cs.zip cs.tail).map fun p => p.2.time - p.1.time).length =
          cs.length - 1 := by
        rw [List.length_map, List.length_zip, List.length_tail]
        omega
      rw [if_neg (by omega)]
      by_cases hk : ((cs.zip cs.tail).map fun p => p.2.time - p.1.time).filter
          (fun dt => decide (270 < dt ∧ dt < 2000)) = []
      · rw [if_pos (by rw [hk]; simp), if_pos hk]
      · rw [if_neg ?_, if_neg hk]
        have := List.length_pos.mpr hk
        omega
  refine ⟨?_, hspec, ⟨?_, by norm_num [abs_lt]⟩, ?_, by norm_num, ?_⟩
  · intro cs h
    simp only [calculateBpm]
    rw [if_pos h]
  · rw [hspec]
    simp only [rawBpmEstimatorSpec]
    norm_num [List.zip_cons_cons, calculateMedian, qSort, List.insertionSort,
      List.orderedInsert]
    exact fun h => absurd h (by simp)
  · rw [hspec]
    simp only [rawBpmEstimatorSpec]
    norm_num [List.zip_cons_cons, calculateMedian, qSort, List.insertionSort,
      List.orderedInsert]
  · norm_num [rawBpmAccepted]

/-- Witness for C4: no estimate from fewer than two crossing events. -/
theorem claim_C4_witness : calculateBpm [⟨0, 0⟩] = none :=
  claim_C4_raw_bpm_estimator.1 [⟨0, 0⟩] (by simp)

/-- The engine state at monitoring start (all buffers empty, nothing locked). -/
def initState : EngineState := ⟨[], [], [], none, 0, none, ""⟩

/-- An engine state holding a locked BPM of 72. -/
def lockedState : EngineState := ⟨[], [], [], none, 0, some 72, ""⟩

lemma stabilizerStep_display_cases (buffer : List ℚ) (cand : Option ℚ) (cnt : ℕ)
    (lk : Option ℤ) :
    (stabilizerStep buffer cand cnt lk).display = none ∨
    (∃ n, (stabilizerStep buffer cand cnt lk).display = some (.locked n)) ∨
    (∃ n, (stabilizerStep buffer cand cnt lk).display = some (.tentative n)) ∨
    (stabilizerStep buffer cand cnt lk).display = some (.status "Calculating...") ∨
    (stabilizerStep buffer cand cnt lk).display = some (.status "Detecting...") := by
  by_cases h1 : REQUIRED_STABILITY_COUNT ≤ buffer.length
  · cases hmed : calculateMedian buffer with
    | none => left; simp [stabilizerStep, if_pos h1, hmed]
    | some m =>
      by_cases hm0 : m = 0
      · left
        simp [stabilizerStep, if_pos h1, hmed, hm0]
      · rw [stabilizerStep_eq buffer cand cnt lk m h1 hmed hm0]
        rcases cand with _ | c
        · dsimp only
          split_ifs
          · right; left
            exact ⟨_, rfl⟩
          · rcases lk with _ | n
            · right; right; left
              exact ⟨_, rfl⟩
            · right; left
              exact ⟨n, rfl⟩
        · dsimp only
          split_ifs
          · right; left
            exact ⟨_, rfl⟩
          · rcases lk with _ | n
            · right; right; left
              exact ⟨_, rfl⟩
            · right; left
              exact ⟨n, rfl⟩
          · right; left
            exact ⟨_, rfl⟩
          · rcases lk with _ | n
            · right; right; left
              exact ⟨_, rfl⟩
            · right; left
              exact ⟨n, rfl⟩
  · rcases lk with _ | n
    · right; right; right; right
      simp [stabilizerStep, h1]
    · right; left
      refine ⟨n, ?_⟩
      simp [stabilizerStep, h1]

lemma stab_display_mem (buffer : List ℚ) (cand : Option ℚ) (cnt : ℕ) (lk : Option ℤ)
    (d : DisplayValue) (h : (stabilizerStep buffer cand cnt lk).display = some d) :
    (∃ n, d = .locked n) ∨ (∃ n, d = .tentative n) ∨
    d = .status "Calculating..." ∨ d = .status "Detecting..." := by
  rcases stabilizerStep_display_cases buffer cand cnt lk with h0 | ⟨n, hn⟩ | ⟨n, hn⟩ | hc | hdet
  · rw [h0] at h
    cases h
  · rw [hn, Option.some_inj] at h
    exact Or.inl ⟨n, h.symm⟩
  · rw [hn, Option.some_inj] at h
    exact Or.inr (Or.inl ⟨n, h.symm⟩)
  · rw [hc, Option.some_inj] at h
    exact Or.inr (Or.inr (Or.inl h.symm))
  · rw [hdet, Option.some_inj] at h
    exact Or.inr (Or.inr (Or.inr h.symm))

/-- C7: on a tick whose quality verdict is not Good, no rate estimation
happens: with a lock present, the whole lock/filter state is untouched; with
no lock, the partial reset clears the raw-BPM window, the candidate buffer,
the stable candidate and the counter, while `lockedBpm` stays `none`. -/
theorem claim_C7_non_good_tick (s : EngineState) (value currentTime : ℚ)
    (hbad : (analyzeSignalQuality (tickBuffer s value currentTime)
      (analyzeData (tickBuffer s value currentTime))).good = false) :
    (s.lockedBpm ≠ none →
      (processTick s value currentTime).1.recentValidRawBpms = s.recentValidRawBpms ∧
      (processTick s value currentTime).1.stableBpmCandidateBuffer =
        s.stableBpmCandidateBuffer ∧
      (processTick s value currentTime).1.currentStableBpmCandidate =
        s.currentStableBpmCandidate ∧
      (processTick s value currentTime).1.currentStabilityCounter =
        s.currentStabilityCounter ∧
      (processTick s value currentTime).1.lockedBpm = s.lockedBpm) ∧
    (s.lockedBpm = none →
      (processTick s value currentTime).1.recentValidRawBpms = [] ∧
      (processTick s value currentTime).1.stableBpmCandidateBuffer = [] ∧
      (processTick s value currentTime).1.currentStableBpmCandidate = none ∧
      (processTick s value currentTime).1.currentStabilityCounter = 0 ∧
      (processTick s value currentTime).1.lockedBpm = none) := by
  constructor
  · intro hlk
    simp [processTick, hbad, hlk]
  · intro hlk
    simp [processTick, hbad, hlk, resetMeasurementState]

/-- Witness for C7: one sample is far below the analysis threshold, the
verdict is not Good, and an existing lock of 72 survives untouched. -/
theorem claim_C7_witness :
    (lockedState.lockedBpm ≠ none →
      (processTick lockedState 0 0).1.recentValidRawBpms = lockedState.recentValidRawBpms ∧
      (processTick lockedState 0 0).1.stableBpmCandidateBuffer =
        lockedState.stableBpmCandidateBuffer ∧
      (processTick lockedState 0 0).1.currentStableBpmCandidate =
        lockedState.currentStableBpmCandidate ∧
      (processTick lockedState 0 0).1.currentStabilityCounter =
        lockedState.currentStabilityCounter ∧
      (processTick lockedState 0 0).1.lockedBpm = lockedState.lockedBpm) ∧
    (lockedState.lockedBpm = none →
      (processTick lockedState 0 0).1.recentValidRawBpms = [] ∧
      (processTick lockedState 0 0).1.stableBpmCandidateBuffer = [] ∧
      (processTick lockedState 0 0).1.currentStableBpmCandidate = none ∧
      (processTick lockedState 0 0).1.currentStabilityCounter = 0 ∧
      (processTick lockedState 0 0).1.lockedBpm = none) :=
  claim_C7_non_good_tick lockedState 0 0
    (by norm_num [tickBuffer, pushSample, MAX_SAMPLES, lockedState,
      analyzeSignalQuality, MIN_SAMPLES_FOR_ANALYSIS])

/-- C9: every value a tick hands to the display callback is a locked integer
BPM, a tentative integer BPM, or one of the six enumerated status strings —
never anything else. -/
theorem claim_C9_display_values (s : EngineState) (value currentTime : ℚ)
    (d : DisplayValue) (h : (processTick s value currentTime).2 = some d) :
    (∃ n, d = .locked n) ∨ (∃ n, d = .tentative n) ∨
    d = .status "Analyzing..." ∨ d = .status "Low Signal (Place finger firmly)" ∨
    d = .status "Noisy Signal (Hold still)" ∨ d = .status "Detecting Pulse..." ∨
    d = .status "Calculating..." ∨ d = .status "Detecting..." := by
  by_cases hg : (analyzeSignalQuality (tickBuffer s value currentTime)
      (analyzeData (tickBuffer s value currentTime))).good = false
  · have hd : (if (analyzeSignalQuality (tickBuffer s value currentTime)
        (analyzeData (tickBuffer s value currentTime))).status ≠
          s.lastSignalQualityStatus then
        some (DisplayValue.status (analyzeSignalQuality (tickBuffer s value currentTime)
          (analyzeData (tickBuffer s value currentTime))).status)
      else none) = some d := by
      rw [← h]
      simp only [processTick]
      rw [if_pos hg]
      split_ifs <;> rfl
    split_ifs at hd with hch
    · rw [Option.some_inj] at hd
      subst hd
      rcases gate_cases (tickBuffer s value currentTime)
          (analyzeData (tickBuffer s value currentTime)) with h5 | h5 | h5 | h5 | h5
      · rw [h5]
        simp
      · rw [h5]
        simp
      · rw [h5]
        simp
      · rw [h5]
        simp
      · rw [h5] at hg
        simp at hg
  · simp only [processTick] at h
    rw [if_neg hg] at h
    dsimp only at h
    rcases stab_display_mem _ _ _ _ _ h with h4 | h4 | h4 | h4
    · exact Or.inl h4
    · exact Or.inr (Or.inl h4)
    · exact Or.inr (Or.inr (Or.inr (Or.inr (Or.inr (Or.inr (Or.inl h4))))))
    · exact Or.inr (Or.inr (Or.inr (Or.inr (Or.inr (Or.inr (Or.inr h4))))))

/-- Witness for C9: the very first tick surfaces the Analyzing status. -/
theorem claim_C9_witness :
    (∃ n, DisplayValue.status "Analyzing..." = DisplayValue.locked n) ∨
    (∃ n, DisplayValue.status "Analyzing..." = DisplayValue.tentative n) ∨
    DisplayValue.status "Analyzing..." = DisplayValue.status "Analyzing..." ∨
    DisplayValue.status "Analyzing..." = DisplayValue.status "Low Signal (Place finger firmly)" ∨
    DisplayValue.status "Analyzing..." = DisplayValue.status "Noisy Signal (Hold still)" ∨
    DisplayValue.status "Analyzing..." = DisplayValue.status "Detecting Pulse..." ∨
    DisplayValue.status "Analyzing..." = DisplayValue.status "Calculating..." ∨
    DisplayValue.status "Analyzing..." = DisplayValue.status "Detecting..." :=
  claim_C9_display_values initState 0 0 (.status "Analyzing...")
    (by
      norm_num [processTick, tickBuffer, pushSample, MAX_SAMPLES, initState,
        analyzeSignalQuality, MIN_SAMPLES_FOR_ANALYSIS, resetMeasurementState]
      intro hh
      exact absurd hh (by decide))

end HRM
